import Mathlib

/-!
# Verification of the `eventsource` SSE broadcaster

A shallow embedding, in Lean 4, of the server-sent-events broadcaster
(`eventsource.go` / `consumer.go`): the wire-format encoders, the broadcast
coordinator (`controlProcess`), the consumer delivery loop, and the handshake
performed by `newConsumer`.  Strings are modelled as `List Char` (newline
handling in the Go code is byte-oriented and `'\n'` is a single byte, so the
char-list view is faithful).  Go channel operations that panic (send on a
closed channel, close of a closed channel) are modelled as explicit `Panic`
error outcomes.
-/

/-- Model of Go `strings.Replace(s, "\n", "", -1)`: remove every newline
character (the pattern is a single character, so replacement by the empty
string is exactly a filter). -/
def removeNewlines (s : List Char) : List Char :=
  s.filter (fun c => c != '\n')

/-- Model of Go `strings.Split(s, "\n")`: split on each newline, keeping
empty segments; the result is always non-empty (`[""]` for the empty
string), exactly as in Go. -/
def splitNL : List Char → List (List Char)
  | [] => [[]]
  | c :: rest =>
      if c = '\n' then [] :: splitNL rest
      else (c :: (splitNL rest).headD []) :: (splitNL rest).tail

/-- Go `eventMessage` (eventsource.go): the three string fields of an SSE
event message. -/
structure eventMessage where
  id    : List Char
  event : List Char
  data  : List Char
deriving DecidableEq

/-- `eventMessage.prepareMessage` (eventsource.go lines 91-107), translated
clause by clause: the `id` line when `len(m.id) > 0` with newlines stripped,
then the `event` line likewise, then one `data: ` line per newline-split
segment when `len(m.data) > 0`, then the terminating blank line. -/
def eventMessage.prepareMessage (m : eventMessage) : List Char :=
  (if 0 < m.id.length then "id: ".toList ++ removeNewlines m.id ++ ['\n'] else [])
  ++ (if 0 < m.event.length then "event: ".toList ++ removeNewlines m.event ++ ['\n'] else [])
  ++ (if 0 < m.data.length then
        ((splitNL m.data).map (fun line => "data: ".toList ++ line ++ ['\n'])).flatten
      else [])
  ++ ['\n']

/-- Go `retryMessage` (eventsource.go): the retry interval, an `Int` count
of nanoseconds exactly as Go's `time.Duration` (an `int64`). -/
structure retryMessage where
  retry : Int
deriving DecidableEq

/-- `retryMessage.prepareMessage` (eventsource.go lines 226-228):
`fmt.Sprintf("retry: %d\n\n", m.retry/time.Millisecond)`.  Go division of
`int64` truncates toward zero, i.e. `Int.tdiv`; `time.Millisecond` is
`1000000` nanoseconds; `%d` renders the signed decimal numeral, i.e.
`toString` on `Int`. -/
def retryMessage.prepareMessage (m : retryMessage) : List Char :=
  "retry: ".toList ++ (toString (m.retry.tdiv 1000000)).toList ++ "\n\n".toList

/-- Go `message` interface: either kind of publishable message. -/
inductive message where
  | ev (m : eventMessage)
  | re (m : retryMessage)
deriving DecidableEq

/-- Dispatch of `prepareMessage` through the `message` interface. -/
def message.prepareMessage : message → List Char
  | .ev m => m.prepareMessage
  | .re m => m.prepareMessage

/-- Render a list of lines to wire bytes: each line followed by one
newline character. -/
def renderLines (ls : List (List Char)) : List Char :=
  (ls.map (fun l => l ++ ['\n'])).flatten

/-- Modelled from the claim's words (the specification's encoding rules,
spec §4.3), as a line list: an `id: ` line iff `id` is non-empty (newlines
removed), then an `event: ` line iff `event` is non-empty, then one
`data: ` line per newline-split segment iff `data` is non-empty, then
exactly one empty (blank) line. -/
def specEventFrameLines (id event data : List Char) : List (List Char) :=
  (if id ≠ [] then ["id: ".toList ++ removeNewlines id] else [])
  ++ (if event ≠ [] then ["event: ".toList ++ removeNewlines event] else [])
  ++ (if data ≠ [] then (splitNL data).map (fun seg => "data: ".toList ++ seg) else [])
  ++ [[]]

theorem splitNL_ne_nil (l : List Char) : splitNL l ≠ [] := by
  cases l with
  | nil => simp [splitNL]
  | cons c rest => simp only [splitNL]; split <;> simp

theorem splitNL_append_newline (d : List Char) :
    splitNL (d ++ ['\n']) = splitNL d ++ [[]] := by
  induction d with
  | nil => rfl
  | cons c rest ih =>
      by_cases h : c = '\n'
      · simp [splitNL, h, ih]
      · rcases hr : splitNL rest with _ | ⟨s, ss⟩
        · exact absurd hr (splitNL_ne_nil rest)
        · simp [splitNL, h, ih, hr]

theorem renderLines_append (a b : List (List Char)) :
    renderLines (a ++ b) = renderLines a ++ renderLines b := by
  simp [renderLines]

/-- C1: for every event message `(id, event, data)`, the encoder emits, in
this fixed order: an `id: ` line with newlines removed iff `id` is
non-empty; an `event: ` line with newlines removed iff `event` is
non-empty; one `data: <segment>` line per newline-split segment iff `data`
is non-empty; then exactly one terminating blank line.  Stated as: (1) the
encoder equals the line-by-line rendering prescribed by the specification;
(2) the terminating blank line exists (last line is empty); (3) it is the
only blank line (every earlier line is non-empty); (4) a trailing newline
in `data` yields a final empty `data: ` line before the terminator. -/
theorem C1_event_message_encoding (id event data : List Char) :
    eventMessage.prepareMessage ⟨id, event, data⟩
      = renderLines (specEventFrameLines id event data)
    ∧ (specEventFrameLines id event data).getLast? = some []
    ∧ (∀ l ∈ (specEventFrameLines id event data).dropLast, l ≠ [])
    ∧ specEventFrameLines id event (data ++ ['\n'])
      = (if id ≠ [] then ["id: ".toList ++ removeNewlines id] else [])
        ++ (if event ≠ [] then ["event: ".toList ++ removeNewlines event] else [])
        ++ ((splitNL data).map (fun seg => "data: ".toList ++ seg)
            ++ ["data: ".toList])
        ++ [[]] := by
  refine ⟨?_, ?_, ?_, ?_⟩
  · simp only [eventMessage.prepareMessage, specEventFrameLines,
      renderLines_append, List.length_pos]
    simp only [renderLines, List.map_map, List.flatten]
    split <;> split <;> split <;>
      simp [Function.comp_def, List.append_assoc]
  · simp only [specEventFrameLines, ← List.append_assoc]
    exact List.getLast?_concat _
  · simp only [specEventFrameLines, ← List.append_assoc, List.dropLast_concat]
    intro l hl
    rcases List.mem_append.mp hl with hl' | hl'
    · rcases List.mem_append.mp hl' with hl'' | hl''
      · rcases Decidable.em (id = []) with h | h
        · simp [h] at hl''
        · simp [h] at hl''
          simp [hl'']
      · rcases Decidable.em (event = []) with h | h
        · simp [h] at hl''
        · simp [h] at hl''
          simp [hl'']
    · rcases Decidable.em (data = []) with h | h <;> simp [h] at hl'
      rcases hl' with ⟨seg, _, hseg⟩
      simp [← hseg]
  · have hne : data ++ ['\n'] ≠ [] := by simp
    simp [specEventFrameLines, hne, splitNL_append_newline]

/-- Witness for C1 at a concrete input: the second body line of the frame
for `id = "1"`, `data = "test"` is non-empty. -/
theorem C1_event_message_encoding_witness : "data: test".toList ≠ ([] : List Char) :=
  (C1_event_message_encoding "1".toList [] "test".toList).2.2.1
    "data: test".toList (by decide)

/-- C9: the retry-message encoder produces exactly `retry: ` followed by
the duration in whole milliseconds (truncated quotient of the nanosecond
count by `1000000`), a newline, and a blank line; and a retry of 3 seconds
(3000000000 ns) encodes as `"retry: 3000\n\n"`. -/
theorem C9_retry_message_encoding (t : Int) :
    retryMessage.prepareMessage ⟨t⟩
      = "retry: ".toList ++ (toString (t.tdiv 1000000)).toList ++ ['\n', '\n']
    ∧ retryMessage.prepareMessage ⟨3 * 1000000000⟩ = "retry: 3000\n\n".toList := by
  exact ⟨rfl, by decide⟩

/-- Go `consumer` struct (consumer.go lines 12-17): `conn` is modelled by the
identity `cid` (the coordinator compares consumers by pointer identity and
never performs I/O itself); the `in` channel `make(chan []byte, 10)` is
modelled by its capacity `inCap`, its buffered contents `inQueue` (FIFO) and
whether it has been closed (`inClosed`); `staled` is the flag set by the
delivery loop. -/
structure consumer where
  cid      : Nat
  inCap    : Nat
  inQueue  : List (List Char)
  inClosed : Bool
  staled   : Bool
deriving DecidableEq

/-- The coordinator state owned by `controlProcess` (eventsource.go): the
registry list and whether shutdown has completed (`closed = true` models
that `close(es.sink)`, `close(es.add)`, `close(es.staled)` and
`close(es.close)` have run and `controlProcess` has returned). -/
structure eventSource where
  consumers : List consumer
  closed    : Bool
deriving DecidableEq

/-- Go runtime faults raised by channel misuse: sending on a closed channel
and closing an already-closed channel both panic. -/
inductive Panic where
  | sendOnClosed
  | closeOfClosed
deriving DecidableEq

/-- One fan-out step of the publish case (eventsource.go lines 118-127):
skip the consumer when `c.staled`; otherwise `select { case c.in <-
message: default: }` — the non-blocking send succeeds exactly when the
buffered channel has room, and the `default` branch silently drops the
message otherwise. -/
def enqueueStep (b : List Char) (c : consumer) : consumer :=
  if c.staled then c
  else if c.inQueue.length < c.inCap then { c with inQueue := c.inQueue ++ [b] }
  else c

/-- `sendMessage` + the `sink` case of `controlProcess` (eventsource.go
lines 112-129, 217-219): after shutdown the send on the closed `es.sink`
panics; otherwise the message is encoded once by `prepareMessage` and the
same bytes are offered to every registry entry. -/
def publish (es : eventSource) (m : message) : Except Panic eventSource :=
  if es.closed then .error .sendOnClosed
  else .ok { es with consumers := es.consumers.map (enqueueStep m.prepareMessage) }

/-- `ServeHTTP`'s `es.add <- cons` + the `add` case of `controlProcess`
(eventsource.go lines 151-157, 214): after shutdown the send on the closed
`es.add` panics; otherwise `PushBack` appends the consumer. -/
def register (es : eventSource) (c : consumer) : Except Panic eventSource :=
  if es.closed then .error .sendOnClosed
  else .ok { es with consumers := es.consumers ++ [c] }

/-- The stale report (`consumer.es.staled <- consumer`) + the `staled` case
of `controlProcess` (eventsource.go lines 158-178): after shutdown the send
on the closed `es.staled` panics; otherwise every registry element equal to
the reported consumer (identity comparison) is removed, and then
`close(c.in)` runs — which panics if that channel is already closed. -/
def markStale (es : eventSource) (c : consumer) :
    Except Panic (eventSource × consumer) :=
  if es.closed then .error .sendOnClosed
  else if c.inClosed then .error .closeOfClosed
  else .ok ({ es with consumers := es.consumers.filter (fun x => x.cid != c.cid) },
            { c with inClosed := true })

/-- `Close()` + the `close` case of `controlProcess` (eventsource.go lines
130-150, 203-205): after shutdown the send on the closed `es.close` panics;
otherwise every registry entry's `in` channel is closed (its delivery loop
then closes the connection and exits) and `es.consumers.Init()` clears the
registry.  The second component is the list of previously-registered
consumers, each with its queue now closed. -/
def shutdown (es : eventSource) : Except Panic (eventSource × List consumer) :=
  if es.closed then .error .sendOnClosed
  else .ok ({ consumers := [], closed := true },
            es.consumers.map (fun c => { c with inClosed := true }))

/-- `ConsumersCount` (eventsource.go lines 234-239): the registry length. -/
def consumersCount (es : eventSource) : Nat :=
  es.consumers.length

/-- C2: publish encodes the message once and, for every registry entry
whose stale flag is unset, attempts a non-blocking enqueue of those same
encoded bytes; a full queue silently drops (consumer unchanged, no error);
stale entries receive no enqueue attempt.  The single `.ok` result is the
absence of any surfaced error. -/
theorem C2_publish_fanout (es : eventSource) (m : message)
    (h : es.closed = false) :
    publish es m
      = .ok { es with consumers := es.consumers.map (enqueueStep m.prepareMessage) }
    ∧ (∀ c : consumer, c.staled = true → enqueueStep m.prepareMessage c = c)
    ∧ (∀ c : consumer, c.staled = false → c.inQueue.length < c.inCap →
        enqueueStep m.prepareMessage c
          = { c with inQueue := c.inQueue ++ [m.prepareMessage] })
    ∧ (∀ c : consumer, c.staled = false → ¬ c.inQueue.length < c.inCap →
        enqueueStep m.prepareMessage c = c) := by
  refine ⟨by simp [publish, h], ?_, ?_, ?_⟩ <;> intro c h1 <;>
    simp [enqueueStep, h1] <;> intro h2 <;> simp [h2]

/-- Witness for C2: publishing a retry message of 0 ns to a one-consumer
registry enqueues the bytes `retry: 0\n\n` into its empty queue. -/
theorem C2_publish_fanout_witness :
    publish ⟨[⟨0, 10, [], false, false⟩], false⟩ (.re ⟨0⟩)
      = .ok ⟨[⟨0, 10, ["retry: 0\n\n".toList], false, false⟩], false⟩ := by
  rw [(C2_publish_fanout ⟨[⟨0, 10, [], false, false⟩], false⟩ (.re ⟨0⟩) rfl).1]
  simp only [Except.ok.injEq]
  decide

/-- The ordered handshake writes performed by `newConsumer` (consumer.go
lines 55-96): the status line together with `Content-Type` (one `Write`
call), the `Vary` header, the `Content-Encoding: gzip` header when `es.gzip`
is set and the request accepts gzip (`acceptGzip` models
`req == nil || strings.Contains(req.Header.Get("Accept-Encoding"),
"gzip")`), then each caller-supplied header followed by its own `\r\n`
write, and finally the blank line terminating the header block.  `custom =
none` models a nil `es.customHeadersFunc`. -/
def handshakeChunks (gz acceptGzip : Bool) (custom : Option (List (List Char))) :
    List (List Char) :=
  ["HTTP/1.1 200 OK\r\nContent-Type: text/event-stream\r\n".toList,
   "Vary: Accept-Encoding\r\n".toList]
  ++ (if gz && acceptGzip then ["Content-Encoding: gzip\r\n".toList] else [])
  ++ (match custom with
      | none => []
      | some hs => (hs.map (fun h => [h, "\r\n".toList])).flatten)
  ++ ["\r\n".toList]

/-- Run the handshake writes in order against an oracle giving each write's
outcome; the result is the index of the first failing write, when one
fails. -/
def firstFailure (oracle : Nat → Bool) : Nat → List (List Char) → Option Nat
  | _, [] => none
  | i, _ :: rest => if oracle i then firstFailure oracle (i + 1) rest else some i

/-- `newConsumer` (consumer.go lines 42-129): the consumer record is built
with `in: make(chan []byte, 10)` (capacity 10, empty, open) and `staled:
false`; each handshake write that fails causes `conn.Close()` and an error
result with no delivery loop started.  The second component records whether
construction closed the connection (true exactly on a handshake failure). -/
def newConsumer (oracle : Nat → Bool) (gz acceptGzip : Bool)
    (custom : Option (List (List Char))) (cid : Nat) :
    Except Nat consumer × Bool :=
  match firstFailure oracle 0 (handshakeChunks gz acceptGzip custom) with
  | some i => (.error i, true)
  | none =>
      (.ok { cid := cid, inCap := 10, inQueue := [], inClosed := false,
             staled := false }, false)

/-- `ServeHTTP` (eventsource.go lines 208-215): on a `newConsumer` error it
logs and returns — the handshake error is the only thing visible at this
boundary and the coordinator state is untouched; on success it sends the
consumer on `es.add`.  The result pairs the post state with the
boundary-visible error. -/
def serveHTTP (es : eventSource) (oracle : Nat → Bool) (gz acceptGzip : Bool)
    (custom : Option (List (List Char))) (cid : Nat) :
    Except Panic (eventSource × Option Nat) :=
  match newConsumer oracle gz acceptGzip custom cid with
  | (.error i, _) => .ok (es, some i)
  | (.ok c, _) =>
      match register es c with
      | .error p => .error p
      | .ok es' => .ok (es', none)

theorem firstFailure_isSome_of_exists (oracle : Nat → Bool) :
    ∀ (l : List (List Char)) (i j : Nat), j < l.length → oracle (i + j) = false →
      (firstFailure oracle i l).isSome := by
  intro l
  induction l with
  | nil => intro i j hj _; simp at hj
  | cons x rest ih =>
      intro i j hj ho
      by_cases h : oracle i
      · cases j with
        | zero => simp at ho; exact absurd ho (by simp [h])
        | succ j' =>
            have : oracle (i + 1 + j') = false := by
              have : i + Nat.succ j' = i + 1 + j' := by omega
              rwa [this] at ho
            simpa [firstFailure, h] using
              ih (i + 1) j' (by simpa using Nat.lt_of_succ_lt_succ hj) this
      · simp [firstFailure, h]

/-- C10: every consumer's inbound queue is created with fixed capacity 10
and empty; a publish-time enqueue of a non-stale consumer succeeds (appends
the bytes) iff fewer than 10 messages are buffered, and is dropped
(consumer unchanged) when 10 are buffered; the bound `length ≤ capacity`
is an invariant of every enqueue and of publish. -/
theorem C10_queue_capacity (oracle : Nat → Bool) (gz acceptGzip : Bool)
    (custom : Option (List (List Char))) (cid : Nat) (c : consumer)
    (b : List Char) (es : eventSource) (m : message) :
    (∀ c', (newConsumer oracle gz acceptGzip custom cid).1 = .ok c' →
        c'.inCap = 10 ∧ c'.inQueue = [])
    ∧ (c.staled = false → c.inCap = 10 →
        ((enqueueStep b c).inQueue = c.inQueue ++ [b] ↔ c.inQueue.length < 10))
    ∧ (c.staled = false → c.inCap = 10 → 10 ≤ c.inQueue.length →
        enqueueStep b c = c)
    ∧ (c.inQueue.length ≤ c.inCap → (enqueueStep b c).inQueue.length ≤ c.inCap)
    ∧ (∀ es', publish es m = .ok es' →
        (∀ x ∈ es.consumers, x.inQueue.length ≤ x.inCap) →
        ∀ x ∈ es'.consumers, x.inQueue.length ≤ x.inCap) := by
  refine ⟨?_, ?_, ?_, ?_, ?_⟩
  · intro c' hc'
    unfold newConsumer at hc'
    rcases hff : firstFailure oracle 0 (handshakeChunks gz acceptGzip custom) with
        _ | i
    · rw [hff] at hc'; simp at hc'; simp [← hc']
    · rw [hff] at hc'; simp at hc'
  · intro h1 h2
    constructor
    · intro heq
      by_contra hlt
      rw [enqueueStep, h1] at heq
      simp only [if_false, Bool.false_eq_true] at heq
      rw [if_neg (by omega)] at heq
      have := congrArg List.length heq
      simp at this
    · intro hlt
      simp [enqueueStep, h1, h2, hlt]
  · intro h1 h2 h3
    simp [enqueueStep, h1, h2]
    omega
  · intro h1
    by_cases hs : c.staled
    · simp [enqueueStep, hs, h1]
    · by_cases hlt : c.inQueue.length < c.inCap
      · simp [enqueueStep, hs, hlt]; omega
      · simp [enqueueStep, hs, hlt, h1]
  · intro es' hok hinv x hx
    by_cases hc : es.closed
    · simp [publish, hc] at hok
    · simp only [publish, hc, if_false, Bool.false_eq_true, Except.ok.injEq] at hok
      rw [← hok] at hx
      simp only [List.mem_map] at hx
      rcases hx with ⟨y, hy, hxy⟩
      have hyb := hinv y hy
      subst hxy
      by_cases hs : y.staled
      · simpa [enqueueStep, hs] using hyb
      · by_cases hlt : y.inQueue.length < y.inCap
        · simp [enqueueStep, hs, hlt]; omega
        · simpa [enqueueStep, hs, hlt] using hyb

/-- Witness for C10: enqueueing into an empty capacity-10 queue of a fresh
consumer appends the message. -/
theorem C10_queue_capacity_witness :
    (enqueueStep [] ⟨0, 10, [], false, false⟩).inQueue = [[]] :=
  ((C10_queue_capacity (fun _ => true) false false none 0
      ⟨0, 10, [], false, false⟩ [] ⟨[], false⟩ (.re ⟨0⟩)).2.1 rfl rfl).mpr
    (by decide)

/-- Outcome of one `consumer.conn.Write(message)` call, classified as the
delivery loop does (consumer.go lines 110-112): success, a `net.Error`
whose `Timeout()` is true, or any other error (a non-timeout `net.Error`
or a non-`net.Error`, which the code treats alike). -/
inductive WriteRes where
  | ok
  | timeoutErr
  | otherErr
deriving DecidableEq

/-- One wake-up of the delivery loop's `select` (consumer.go lines
102-124): a message dequeued from `consumer.in` together with its write
outcome, the dequeue of a closed empty channel (`open == false`), or the
idle timer firing. -/
inductive LoopEv where
  | recv (m : List Char) (w : WriteRes)
  | queueClosed
  | idleFire
deriving DecidableEq

/-- Observable actions of the delivery loop, in program order. -/
inductive Act where
  | setDeadline (timeout : Int)
  | write (m : List Char)
  | connClose
  | reportStale
  | resetIdle
deriving DecidableEq

/-- The delivery loop of `newConsumer` (consumer.go lines 98-126), as a
function from the sequence of `select` wake-ups to the trace of actions
and the final value of `consumer.staled`.  Per iteration: a closed queue
closes the connection and exits; the idle timer firing closes the
connection, reports staleness and exits (the flag is not written on this
path); a dequeued message first gets `SetWriteDeadline(now + es.timeout)`,
then the write; a write error that is not a tolerated timeout
(`!ok || !netErr.Timeout() || es.closeOnTimeout`) sets `staled`, closes the
connection, reports staleness and exits; otherwise `idleTimer.Reset` runs
and the loop continues. -/
def loopRun (timeout : Int) (closeOnTimeout : Bool) : List LoopEv → List Act × Bool
  | [] => ([], false)
  | .queueClosed :: _ => ([.connClose], false)
  | .idleFire :: _ => ([.connClose, .reportStale], false)
  | .recv m w :: rest =>
      match w with
      | .ok =>
          let r := loopRun timeout closeOnTimeout rest
          (.setDeadline timeout :: .write m :: .resetIdle :: r.1, r.2)
      | .timeoutErr =>
          if closeOnTimeout then
            ([.setDeadline timeout, .write m, .connClose, .reportStale], true)
          else
            let r := loopRun timeout closeOnTimeout rest
            (.setDeadline timeout :: .write m :: .resetIdle :: r.1, r.2)
      | .otherErr => ([.setDeadline timeout, .write m, .connClose, .reportStale], true)

/-- Every `reportStale` in a trace is terminal: no action follows it. -/
def reportTerminal : List Act → Prop
  | [] => True
  | a :: rest => (a = .reportStale → rest = []) ∧ reportTerminal rest

theorem loopRun_reportTerminal (t : Int) (p : Bool) (evs : List LoopEv) :
    reportTerminal (loopRun t p evs).1 := by
  induction evs with
  | nil => trivial
  | cons e rest ih =>
      cases e with
      | queueClosed => simp [loopRun, reportTerminal]
      | idleFire => simp [loopRun, reportTerminal]
      | recv m w =>
          cases w with
          | ok => simpa [loopRun, reportTerminal] using ih
          | timeoutErr =>
              by_cases hp : p
              · simp [loopRun, hp, reportTerminal]
              · simpa [loopRun, hp, reportTerminal] using ih
          | otherErr => simp [loopRun, reportTerminal]

theorem loopRun_report_le_one (t : Int) (p : Bool) (evs : List LoopEv) :
    (loopRun t p evs).1.count .reportStale ≤ 1 := by
  induction evs with
  | nil => simp [loopRun]
  | cons e rest ih =>
      cases e with
      | queueClosed => simp [loopRun]
      | idleFire => simp [loopRun, List.count_cons]
      | recv m w =>
          cases w with
          | ok => simpa [loopRun, List.count_cons] using ih
          | timeoutErr =>
              by_cases hp : p
              · simp [loopRun, hp, List.count_cons]
              · simpa [loopRun, hp, List.count_cons] using ih
          | otherErr => simp [loopRun, List.count_cons]

theorem loopRun_connClose_le_one (t : Int) (p : Bool) (evs : List LoopEv) :
    (loopRun t p evs).1.count .connClose ≤ 1 := by
  induction evs with
  | nil => simp [loopRun]
  | cons e rest ih =>
      cases e with
      | queueClosed => simp [loopRun]
      | idleFire => simp [loopRun, List.count_cons]
      | recv m w =>
          cases w with
          | ok => simpa [loopRun, List.count_cons] using ih
          | timeoutErr =>
              by_cases hp : p
              · simp [loopRun, hp, List.count_cons]
              · simpa [loopRun, hp, List.count_cons] using ih
          | otherErr => simp [loopRun, List.count_cons]

/-- C4: for every dequeued message the loop sets the configured write
deadline before the write; a timeout with `closeOnWriteTimeout = false`
drops the message and continues (idle timer reset, flag unchanged); any
other error, or a timeout with the policy true, sets the stale flag,
closes the connection, reports staleness and ends the loop — and in every
possible trace the report happens at most once and nothing (in particular
no write) follows it. -/
theorem C4_write_error_classification (t : Int) (p : Bool) (m : List Char)
    (rest evs : List LoopEv) :
    loopRun t p (.recv m .otherErr :: rest)
      = ([.setDeadline t, .write m, .connClose, .reportStale], true)
    ∧ loopRun t true (.recv m .timeoutErr :: rest)
      = ([.setDeadline t, .write m, .connClose, .reportStale], true)
    ∧ loopRun t false (.recv m .timeoutErr :: rest)
      = (.setDeadline t :: .write m :: .resetIdle :: (loopRun t false rest).1,
         (loopRun t false rest).2)
    ∧ loopRun t p (.recv m .ok :: rest)
      = (.setDeadline t :: .write m :: .resetIdle :: (loopRun t p rest).1,
         (loopRun t p rest).2)
    ∧ (loopRun t p evs).1.count .reportStale ≤ 1
    ∧ reportTerminal (loopRun t p evs).1 := by
  exact ⟨rfl, by simp [loopRun], by simp [loopRun], rfl,
    loopRun_report_le_one t p evs, loopRun_reportTerminal t p evs⟩

/-- Witness for C4 at a concrete input: a fatal write in a singleton event
stream yields the four-action trace with the stale flag set. -/
theorem C4_write_error_classification_witness :
    loopRun 2 true [.recv [] .otherErr]
      = ([.setDeadline 2, .write [], .connClose, .reportStale], true) :=
  (C4_write_error_classification 2 true [] [] []).1

/-- C8: whenever any handshake write fails (the status/header chunk, the
`Vary` header, the gzip header, a custom header line or its `\r\n`, or the
terminating blank line), `newConsumer` closes the partially-opened
connection and returns the error, `ServeHTTP` surfaces that error only at
its own boundary and performs no registration — the coordinator state is
unchanged (hence no publish can ever observe the failed session, and the
publisher never receives the error).  The last conjunct connects the
hypothesis to the claim's wording: if any write in the handshake sequence
fails, `firstFailure` detects a failure. -/
theorem C8_handshake_failure (es : eventSource) (oracle : Nat → Bool)
    (gz acceptGzip : Bool) (custom : Option (List (List Char))) (cid i : Nat)
    (h : firstFailure oracle 0 (handshakeChunks gz acceptGzip custom) = some i) :
    newConsumer oracle gz acceptGzip custom cid = (.error i, true)
    ∧ serveHTTP es oracle gz acceptGzip custom cid = .ok (es, some i)
    ∧ (∀ oracle' : Nat → Bool,
        ∀ j < (handshakeChunks gz acceptGzip custom).length, oracle' j = false →
        (firstFailure oracle' 0 (handshakeChunks gz acceptGzip custom)).isSome) := by
  have h1 : newConsumer oracle gz acceptGzip custom cid = (.error i, true) := by
    unfold newConsumer; rw [h]
  refine ⟨h1, ?_, ?_⟩
  · simp [serveHTTP, h1]
  · intro oracle' j hj ho
    exact firstFailure_isSome_of_exists oracle' _ 0 j hj (by simpa using ho)

/-- Witness for C8: with every write failing, session construction fails at
write 0, the connection is closed, and `ServeHTTP` leaves the coordinator
state unchanged. -/
theorem C8_handshake_failure_witness :
    serveHTTP ⟨[], false⟩ (fun _ => false) false false none 0
      = .ok (⟨[], false⟩, some 0) :=
  (C8_handshake_failure ⟨[], false⟩ (fun _ => false) false false none 0 0 rfl).2.1

/-- An operation arriving on the coordinator's `select` (one `controlProcess`
iteration): a publish on `es.sink`, a registration on `es.add`, or a stale
report on `es.staled`. -/
inductive Op where
  | pub (m : message)
  | reg (c : consumer)
  | stale (c : consumer)
deriving DecidableEq

/-- Apply one coordinator operation. -/
def applyOp (es : eventSource) : Op → Except Panic eventSource
  | .pub m => publish es m
  | .reg c => register es c
  | .stale c => (markStale es c).map (fun r => r.1)

/-- A sequence of successfully processed coordinator operations. -/
inductive Steps : eventSource → List Op → eventSource → Prop
  | nil (es : eventSource) : Steps es [] es
  | cons {es es' es'' : eventSource} {o : Op} {ops : List Op} :
      applyOp es o = .ok es' → Steps es' ops es'' → Steps es (o :: ops) es''

theorem enqueueStep_cid (b : List Char) (c : consumer) :
    (enqueueStep b c).cid = c.cid := by
  unfold enqueueStep; split
  · rfl
  · split <;> rfl

/-- Absence of a consumer identity from the registry is preserved by every
coordinator operation that does not re-register that identity. -/
theorem absent_applyOp {es es' : eventSource} {o : Op} {cid : Nat}
    (habs : ∀ x ∈ es.consumers, x.cid ≠ cid)
    (hreg : ∀ c', o = .reg c' → c'.cid ≠ cid)
    (h : applyOp es o = .ok es') :
    ∀ x ∈ es'.consumers, x.cid ≠ cid := by
  cases o with
  | pub m =>
      by_cases hc : es.closed
      · simp [applyOp, publish, hc] at h
      · simp only [applyOp, publish, hc, if_false, Bool.false_eq_true,
          Except.ok.injEq] at h
        intro x hx
        rw [← h] at hx
        simp only [List.mem_map] at hx
        rcases hx with ⟨y, hy, hxy⟩
        rw [← hxy, enqueueStep_cid]
        exact habs y hy
  | reg c' =>
      by_cases hc : es.closed
      · simp [applyOp, register, hc] at h
      · simp only [applyOp, register, hc, if_false, Bool.false_eq_true,
          Except.ok.injEq] at h
        intro x hx
        rw [← h] at hx
        rcases List.mem_append.mp hx with hx' | hx'
        · exact habs x hx'
        · simp at hx'
          rw [hx']
          exact hreg c' rfl
  | stale c' =>
      by_cases hc : es.closed
      · simp [applyOp, markStale, hc, Except.map] at h
      · by_cases hin : c'.inClosed
        · simp [applyOp, markStale, hc, hin, Except.map] at h
        · simp only [applyOp, markStale, hc, hin, if_false, Bool.false_eq_true,
            Except.map, Except.ok.injEq] at h
          intro x hx
          rw [← h] at hx
          exact habs x (List.mem_of_mem_filter hx)

/-- C5: a stale-flagged consumer receives no enqueue attempt from publish;
processing its stale report removes its identity from the registry, so the
count excludes it; and through any further successfully-processed sequence
of publishes, stale reports and registrations of other consumers, the
identity never reappears in the registry — hence every subsequent
`consumersCount` counts a registry from which it is absent. -/
theorem C5_stale_invariant (es es'' : eventSource) (c : consumer)
    (b : List Char) (ops : List Op) (cid : Nat) :
    (c.staled = true → enqueueStep b c = c)
    ∧ (∀ es1 c1, markStale es c = .ok (es1, c1) →
        (∀ x ∈ es1.consumers, x.cid ≠ c.cid)
        ∧ consumersCount es1
            = (es.consumers.filter (fun y => y.cid != c.cid)).length)
    ∧ ((∀ x ∈ es.consumers, x.cid ≠ cid) →
        (∀ c', Op.reg c' ∈ ops → c'.cid ≠ cid) →
        Steps es ops es'' →
        ∀ x ∈ es''.consumers, x.cid ≠ cid) := by
  refine ⟨fun h => by simp [enqueueStep, h], ?_, ?_⟩
  · intro es1 c1 h
    by_cases hc : es.closed
    · simp [markStale, hc] at h
    · by_cases hin : c.inClosed
      · simp [markStale, hc, hin] at h
      · simp only [markStale, hc, hin, if_false, Bool.false_eq_true,
          Except.ok.injEq, Prod.mk.injEq] at h
        constructor
        · intro x hx
          rw [← h.1] at hx
          have := List.of_mem_filter hx
          simpa using this
        · rw [← h.1]
          rfl
  · intro habs hreg hsteps
    induction hsteps with
    | nil => exact habs
    | cons hop _ ih =>
        rename_i es0 es1 es2 o ops0 hsteps0
        exact ih
          (absent_applyOp habs (fun c' ho => hreg c' (by rw [ho]; exact List.mem_cons_self _ _)) hop)
          (fun c' hm => hreg c' (List.mem_cons_of_mem _ hm))

/-- Witness for C5: a stale-flagged consumer is untouched by an enqueue
attempt. -/
theorem C5_stale_invariant_witness :
    enqueueStep [] ⟨0, 10, [], false, true⟩ = ⟨0, 10, [], false, true⟩ :=
  (C5_stale_invariant ⟨[], false⟩ ⟨[], false⟩ ⟨0, 10, [], false, true⟩
    [] [] 0).1 rfl

/-- C3 (amended): when shutdown runs from a running state it clears the
registry (count 0 afterwards) and closes every previously-registered
consumer's inbound queue; each such delivery loop, on dequeuing its closed
queue, closes the connection exactly once and exits, and no trace of any
delivery loop ever closes the connection more than once.  Operations issued
after shutdown do not block and have no effect on any registry — but they
panic (Go sends on the channels that `controlProcess` closed), they are not
the claimed panic-free rejection; in particular a publish after shutdown
delivers nothing to anyone. -/
theorem C3_shutdown_behavior (es esc : eventSource) (t : Int) (p : Bool)
    (rest evs : List LoopEv) (m : message) (c : consumer)
    (h : es.closed = false) (hc : esc.closed = true) :
    shutdown es
      = .ok (⟨[], true⟩, es.consumers.map (fun c' => { c' with inClosed := true }))
    ∧ consumersCount ⟨[], true⟩ = 0
    ∧ loopRun t p (.queueClosed :: rest) = ([.connClose], false)
    ∧ (loopRun t p evs).1.count .connClose ≤ 1
    ∧ publish esc m = .error .sendOnClosed
    ∧ register esc c = .error .sendOnClosed
    ∧ markStale esc c = .error .sendOnClosed
    ∧ shutdown esc = .error .sendOnClosed := by
  refine ⟨by simp [shutdown, h], rfl, rfl, loopRun_connClose_le_one t p evs,
    by simp [publish, hc], by simp [register, hc], by simp [markStale, hc],
    by simp [shutdown, hc]⟩

/-- Witness for C3 at a concrete input: shutting down a one-consumer
broadcaster empties the registry and closes that consumer's queue. -/
theorem C3_shutdown_behavior_witness :
    shutdown ⟨[⟨0, 10, [], false, false⟩], false⟩
      = .ok (⟨[], true⟩, [⟨0, 10, [], true, false⟩]) := by
  rw [(C3_shutdown_behavior ⟨[⟨0, 10, [], false, false⟩], false⟩ ⟨[], true⟩
    2 true [] [] (.re ⟨0⟩) ⟨0, 10, [], false, false⟩ rfl rfl).1]
  simp only [Except.ok.injEq]
  decide

/-- Counterexample to C3 as stated: a publish issued after shutdown does
not fail "rejected or no-op, never ... panics" — the send on the closed
`es.sink` panics (eventsource.go line 218 after line 131 has run). -/
theorem C3_publish_after_shutdown_panics :
    publish ⟨[], true⟩ (.re ⟨0⟩) = .error .sendOnClosed := rfl

/-- C7 (amended): the registry half of `markStale` is idempotent — removal
is by identity, a consumer already absent is ignored and the registry is
unchanged, and removing twice equals removing once; the first application
also closes the consumer's inbound queue (releasing its delivery loop).
But the full operation is not idempotent: a second application for the same
consumer reaches `close(c.in)` with the channel already closed, which
panics. -/
theorem C7_markStale_idempotence (es : eventSource) (c : consumer)
    (l : List consumer) (cid : Nat)
    (h : es.closed = false) (hin : c.inClosed = false) :
    markStale es c
      = .ok ({ es with consumers := es.consumers.filter (fun x => x.cid != c.cid) },
             { c with inClosed := true })
    ∧ ((∀ x ∈ es.consumers, x.cid ≠ c.cid) →
        es.consumers.filter (fun x => x.cid != c.cid) = es.consumers)
    ∧ (l.filter (fun x => x.cid != cid)).filter (fun x => x.cid != cid)
        = l.filter (fun x => x.cid != cid)
    ∧ markStale es { c with inClosed := true } = .error .closeOfClosed := by
  refine ⟨by simp [markStale, h, hin], ?_, ?_, by simp [markStale, h]⟩
  · intro habs
    apply List.filter_eq_self.mpr
    intro x hx
    simpa using habs x hx
  · apply List.filter_eq_self.mpr
    intro x hx
    exact (List.mem_filter.mp hx).2

/-- Witness for C7 at a concrete input: removing an identity twice from a
two-consumer registry equals removing it once. -/
theorem C7_markStale_idempotence_witness :
    (([⟨0, 10, [], false, false⟩, ⟨1, 10, [], false, false⟩] :
        List consumer).filter (fun x => x.cid != 0)).filter (fun x => x.cid != 0)
      = ([⟨0, 10, [], false, false⟩, ⟨1, 10, [], false, false⟩] :
        List consumer).filter (fun x => x.cid != 0) :=
  (C7_markStale_idempotence ⟨[], false⟩ ⟨0, 10, [], false, false⟩
    [⟨0, 10, [], false, false⟩, ⟨1, 10, [], false, false⟩] 0 rfl rfl).2.2.1

/-- Counterexample to C7 as stated: applying `markStale` twice for the same
consumer is not the same as applying it once — the first application
removes the consumer and closes its queue, and the second application
panics re-closing the closed queue (`close` of a closed channel,
eventsource.go line 178) instead of being ignored. -/
theorem C7_markStale_second_application_panics :
    markStale ⟨[⟨0, 10, [], false, false⟩], false⟩ ⟨0, 10, [], false, false⟩
      = .ok (⟨[], false⟩, ⟨0, 10, [], true, false⟩)
    ∧ markStale ⟨[], false⟩ ⟨0, 10, [], true, false⟩ = .error .closeOfClosed := by
  exact ⟨rfl, rfl⟩

/-- A timed delivery event: the arrival (dequeue) instant `t` of a message
`m`, with the write outcome `w`. -/
structure TEv where
  t : Nat
  m : List Char
  w : WriteRes
deriving DecidableEq

/-- Semantics of the idle timer (`time.NewTimer(es.idleTimeout)` and
`idleTimer.Reset(es.idleTimeout)` at consumer.go lines 99 and 119) driving
the loop's `select`: the timer's deadline is the instant of the last reset
plus `idleT`; the idle case wins the `select` exactly when the next dequeue
would arrive strictly later than that deadline — the session dequeued
nothing for strictly more than the idle timeout — and every dequeued item,
whatever its write outcome, resets the deadline to its own instant (a
write outcome that ends the loop makes the remaining events, and the timer,
irrelevant: `loopRun` discards them). -/
def schedule (idleT lastReset : Nat) : List TEv → List LoopEv
  | [] => []
  | e :: rest =>
      if lastReset + idleT < e.t then [.idleFire]
      else .recv e.m e.w :: schedule idleT e.t rest

/-- A write outcome the delivery loop survives: success, or a timeout under
`closeOnTimeout = false`. -/
def nonFatal (p : Bool) (w : WriteRes) : Prop :=
  w = .ok ∨ (w = .timeoutErr ∧ p = false)

/-- Some consecutive silence in the timed event sequence exceeds the idle
timeout strictly (measuring the first event from `last`). -/
def hasGap (idleT last : Nat) : List TEv → Prop
  | [] => False
  | e :: rest => last + idleT < e.t ∨ hasGap idleT e.t rest

theorem loopRun_schedule_gap (t : Int) (p : Bool) (idleT : Nat) :
    ∀ (evs : List TEv) (last : Nat),
      (∀ ev ∈ evs, nonFatal p ev.w) → hasGap idleT last evs →
      (loopRun t p (schedule idleT last evs)).1.count .connClose = 1
      ∧ (loopRun t p (schedule idleT last evs)).1.count .reportStale = 1 := by
  intro evs
  induction evs with
  | nil => intro last _ hg; exact absurd hg (by simp [hasGap])
  | cons e rest ih =>
      intro last hnf hg
      by_cases hfire : last + idleT < e.t
      · simp [schedule, hfire, loopRun, List.count_cons]
      · have hg' : hasGap idleT e.t rest := by
          rcases hg with hg | hg
          · exact absurd hg hfire
          · exact hg
        have hnf' : ∀ ev ∈ rest, nonFatal p ev.w :=
          fun ev hev => hnf ev (List.mem_cons_of_mem _ hev)
        have hrec := ih e.t hnf' hg'
        rcases hnf e (List.mem_cons_self _ _) with hok | ⟨hto, hp⟩
        · simp [schedule, hfire, loopRun, hok, List.count_cons, hrec.1, hrec.2]
        · subst hp
          simp [schedule, hfire, loopRun, hto, List.count_cons, hrec.1, hrec.2]

/-- C6: under any run of non-fatal writes, a session whose timed dequeue
sequence contains a silence strictly longer than `idleTimeout` closes its
connection and reports staleness (each exactly once in the trace); the
idle deadline is reset by every dequeued item — including a tolerated
timeout under `closeOnWriteTimeout = false` — since a non-firing event
re-bases the schedule at its own instant; and the coordinator's handling
of the report removes the session from the registry, with
`consumersCount` thereafter counting a registry that excludes it. -/
theorem C6_idle_timeout (t : Int) (p : Bool) (idleT last : Nat)
    (evs rest : List TEv) (e : TEv) (es : eventSource) (c : consumer)
    (hnf : ∀ ev ∈ evs, nonFatal p ev.w)
    (hgap : hasGap idleT last evs)
    (hin : c.inClosed = false) (hcl : es.closed = false) :
    (loopRun t p (schedule idleT last evs)).1.count .connClose = 1
    ∧ (loopRun t p (schedule idleT last evs)).1.count .reportStale = 1
    ∧ (¬ last + idleT < e.t →
        schedule idleT last (e :: rest) = .recv e.m e.w :: schedule idleT e.t rest)
    ∧ markStale es c
        = .ok ({ es with consumers := es.consumers.filter (fun x => x.cid != c.cid) },
               { c with inClosed := true })
    ∧ (∀ x ∈ es.consumers.filter (fun x => x.cid != c.cid), x.cid ≠ c.cid)
    ∧ consumersCount
        { es with consumers := es.consumers.filter (fun x => x.cid != c.cid) }
        = (es.consumers.filter (fun x => x.cid != c.cid)).length := by
  refine ⟨(loopRun_schedule_gap t p idleT evs last hnf hgap).1,
    (loopRun_schedule_gap t p idleT evs last hnf hgap).2,
    fun hne => by simp [schedule, hne], by simp [markStale, hcl, hin], ?_, rfl⟩
  intro x hx
  simpa using (List.mem_filter.mp hx).2

/-- Witness for C6 at a concrete input: with a 5-unit idle timeout, a last
reset at instant 0 and a single successful dequeue at instant 10, the loop
trace closes the connection exactly once. -/
theorem C6_idle_timeout_witness :
    (loopRun 2 true (schedule 5 0 [⟨10, [], .ok⟩])).1.count .connClose = 1 :=
  (C6_idle_timeout 2 true 5 0 [⟨10, [], .ok⟩] [] ⟨10, [], .ok⟩
    ⟨[], false⟩ ⟨0, 10, [], false, false⟩
    (by intro ev hev; simp at hev; subst hev; exact Or.inl rfl)
    (Or.inl (by norm_num)) rfl rfl).1
